import Mathlib

/-!
# Verification of the GSM L1 FEC core (GSML1FEC.cpp)

A shallow embedding of the Layer-1 forward-error-correction core of the
Osmo-USRP base station (`src/public-trunk/GSM/GSML1FEC.cpp`), together with
theorems settling the frozen claims about it.

Modelling conventions:
* C `int`/`unsigned` values are `Int`/`Nat`; where the source masks a value
  (`& 0x3f`, `& 0x1f`, ...) the embedding applies the same mask with `&&&`.
* C `float` quantities (RSSI, timing error, ordered power) are modelled as
  rationals `ℚ`: every property proved about them here depends only on the
  ordering of the computed values, not on rounding.
* Stateful code becomes explicit state passing: each mutating member function
  is a function from the touched state to the new state.
* `random()` (used by the TCH bad-frame muting) is an explicit input stream.
-/

set_option autoImplicit false
set_option maxRecDepth 10000

/-! ## Power control utility functions (GSM 05.05 4.1.1)

Source lines 85-167: three 32-entry tables and the `decodePower` /
`encodePower` pair.  `pickTable` selects one of the three tables from the
configured band; the embedding passes the table explicitly. -/

/-- Power control codes for GSM400, GSM850, EGSM900 from GSM 05.05 4.1.1. -/
def powerCommandLowBand : List ℤ :=
  [39, 39, 39, 37, 35, 33, 31, 29, 27, 25, 23, 21, 19, 17, 15, 13,
   11, 9, 7, 5, 5, 5, 5, 5, 5, 5, 5, 5, 5, 5, 5, 5]

/-- Power control codes for DCS1800 from GSM 05.05 4.1.1. -/
def powerCommand1800 : List ℤ :=
  [30, 28, 26, 24, 22, 20, 18, 16, 14, 12, 10, 8, 6, 4, 2, 0,
   0, 0, 0, 0, 0, 0, 0, 0, 0, 0, 0, 0, 0, 36, 24, 23]

/-- Power control codes for PCS1900 from GSM 05.05 4.1.1. -/
def powerCommand1900 : List ℤ :=
  [30, 28, 26, 24, 22, 20, 18, 16, 14, 12, 10, 8, 6, 4, 2, 0,
   0, 0, 0, 0, 0, 0, 0, 0, 0, 0, 0, 0, 0, 0, 0, 0]

/-- `decodePower` (source line 142): `return table[code];`. -/
def decodePower (table : List ℤ) (code : Nat) : ℤ := table.getD code 0

/-- The loop of `encodePower` (source lines 158-165).  `n` is the number of
iterations left, `i` the current index, `code`/`minErr` the accumulator:
`thisErr = abs(power - table[i]); if (thisErr==0) return i;
if (thisErr<minErr) { minErr = thisErr; code = i; }`. -/
def epLoop (table : List ℤ) (power : ℤ) : Nat → Nat → Nat → Nat → Nat
  | 0, _, code, _ => code
  | n + 1, i, code, minErr =>
    let thisErr := (power - table.getD i 0).natAbs
    if thisErr = 0 then i
    else if thisErr < minErr then epLoop table power n (i + 1) i thisErr
    else epLoop table power n (i + 1) code minErr

/-- `encodePower` (source lines 152-167): given a power level in dBm, encode
the control code.  `minErr` starts as `abs(power - table[0])`, `code` as 0,
and the loop runs over `i = 1 .. 31`. -/
def encodePower (table : List ℤ) (power : ℤ) : Nat :=
  epLoop table power 31 1 0 (power - table.getD 0 0).natAbs

/-! ## TCH/FACCH deinterleave phase selection

`TCHFACCHL1Decoder::processBurst` (source lines 1057-1135) computes
`B = mMapping.reverseMapping(FN) % 8`, stores the burst into `mI[B]`, and
deinterleaves only when `B % 4 == 3`: `if (B==3) deinterleave(4); else
deinterleave(0);`.  This function is that decision: `none` when the burst
does not complete a 4-burst block, otherwise the `blockOffset` passed to
`deinterleave`. -/
def TCHFACCHL1Decoder.deintOffset (B : Nat) : Option Nat :=
  if B % 4 ≠ 3 then none
  else if B = 3 then some 4 else some 0

/-! ## SACCH closed-loop power/timing control

`SACCHL1Encoder::open` (source lines 1553-1559) and the closed-loop update
at the top of `SACCHL1Encoder::sendFrame` (source lines 1575-1612).  The
`float` quantities are modelled as rationals; the bounds claim depends only
on the explicit compare-and-clamp statements. -/

/-- The configuration the SACCH loop reads (`GSM.RSSITarget`,
`GSM.MS.Power.Max/Min/Damping`, `GSM.MS.TA.Max/Damping`). -/
structure SACCHConfig where
  rssiTarget : ℚ
  powerMax : ℚ
  powerMin : ℚ
  powerDamping : ℚ
  taMax : ℚ
  taDamping : ℚ

/-- What `sendFrame` reads from the sibling `SACCHL1Decoder`: averaged
RSSI and timing error, the decoded actual MS power and timing, and the
`phyNew` flag. -/
structure SACCHMeasurements where
  rssi : ℚ
  actualMSPower : ℚ
  timingError : ℚ
  actualMSTiming : ℚ
  phyNew : Bool

/-- The ordered values owned by `SACCHL1Encoder`. -/
structure SACCHEncState where
  mOrderedMSPower : ℚ
  mOrderedMSTiming : ℚ

/-- `SACCHL1Encoder::open`: `mOrderedMSPower = 33; mOrderedMSTiming = 0;`. -/
def SACCHL1Encoder.openEnc : SACCHEncState := ⟨33, 0⟩

/-- The closed-loop update of `SACCHL1Encoder::sendFrame` (source lines
1583-1612): when the sibling has fresh measurements, damp the ordered power
toward `actualPower - (RSSI - RSSITarget)` and clamp into
`[Power.Min, Power.Max]`, and damp the ordered timing toward
`actualTiming + timingError` and clamp into `[0, TA.Max]`; otherwise leave
the state unchanged. -/
def SACCHL1Encoder.sendFrameUpdate (cfg : SACCHConfig) (sib : SACCHMeasurements)
    (s : SACCHEncState) : SACCHEncState :=
  if sib.phyNew then
    ⟨(if cfg.powerDamping * (1 / 100) * s.mOrderedMSPower +
          (1 - cfg.powerDamping * (1 / 100)) *
            (sib.actualMSPower - (sib.rssi - cfg.rssiTarget)) > cfg.powerMax
      then cfg.powerMax
      else if cfg.powerDamping * (1 / 100) * s.mOrderedMSPower +
          (1 - cfg.powerDamping * (1 / 100)) *
            (sib.actualMSPower - (sib.rssi - cfg.rssiTarget)) < cfg.powerMin
      then cfg.powerMin
      else cfg.powerDamping * (1 / 100) * s.mOrderedMSPower +
          (1 - cfg.powerDamping * (1 / 100)) *
            (sib.actualMSPower - (sib.rssi - cfg.rssiTarget))),
     (if cfg.taDamping * (1 / 100) * s.mOrderedMSTiming +
          (1 - cfg.taDamping * (1 / 100)) *
            (sib.actualMSTiming + sib.timingError) < 0
      then 0
      else if cfg.taDamping * (1 / 100) * s.mOrderedMSTiming +
          (1 - cfg.taDamping * (1 / 100)) *
            (sib.actualMSTiming + sib.timingError) > cfg.taMax
      then cfg.taMax
      else cfg.taDamping * (1 / 100) * s.mOrderedMSTiming +
          (1 - cfg.taDamping * (1 / 100)) *
            (sib.actualMSTiming + sib.timingError))⟩
  else s

/-! ## TCH/FACCH encoder dispatch queues

`TCHFACCHL1Encoder::dispatch` (source lines 1334-1426), restricted to its
effect on the two queues: first the speech-latency head-drop
(`while (mSpeechQ.size() > maxQ) delete mSpeechQ.read();`), then the
priority choice FACCH > speech > filler; the FACCH branch ends with
`while (mSpeechQ.size()>0) delete mSpeechQ.read();`. -/

/-- The two input queues of the TCH/FACCH encoder. -/
structure TCHEncQueues (α β : Type) where
  mL2Q : List α
  mSpeechQ : List β

/-- Which of the three sources `dispatch` encodes for the 4-burst block. -/
inductive DispatchChoice where
  | facch
  | speech
  | filler
  deriving DecidableEq

/-- The queue effect of one `TCHFACCHL1Encoder::dispatch` iteration on an
active channel: the queues afterwards and the chosen source. -/
def TCHFACCHL1Encoder.dispatch {α β : Type} (maxQ : Nat) (s : TCHEncQueues α β) :
    TCHEncQueues α β × DispatchChoice :=
  match s.mL2Q, s.mSpeechQ.drop (s.mSpeechQ.length - maxQ) with
  | _ :: rest, _ => (⟨rest, []⟩, DispatchChoice.facch)
  | [], _ :: rest => (⟨[], rest⟩, DispatchChoice.speech)
  | [], [] => (⟨[], []⟩, DispatchChoice.filler)

/-! ## TCH bad-frame muting

The `!good` block of `TCHFACCHL1Decoder::decodeTCH` (source lines
1209-1222): read `rawByte = mPrevGoodFrame[27]`, attenuate its low 5 bits,
then for `i = 0..3` overwrite byte `6+7*i` with
`(rawByte & 0x80) | (random() % 4) | xmaxc` and clear the top bit of byte
`7+7*i`; finally `memcpy(newFrame, mPrevGoodFrame, 33)`.  The `random()`
stream is an explicit input `rand`. -/

/-- The xmaxc attenuation: `if (xmaxc>2) xmaxc -= 2; else xmaxc = 0;`. -/
def attenuateXmaxc (x : Nat) : Nat := if 2 < x then x - 2 else 0

/-- The in-place mutation of `mPrevGoodFrame` performed by the bad-frame
block.  The four written bytes `6+7*i` are exactly the indices `< 33` that
are `6 mod 7`, and the four cleared bytes `7+7*i` (`i = 0..3`) exactly the
indices `< 33` that are `0 mod 7` other than 0. -/
def TCHFACCHL1Decoder.badFrameMutate (prev : Nat → Nat) (rand : Nat → Nat) :
    Nat → Nat :=
  fun idx =>
    if idx < 33 ∧ idx % 7 = 6 then
      (prev 27 &&& 128) ||| (rand (idx / 7) % 4) ||| attenuateXmaxc (prev 27 &&& 31)
    else if idx < 33 ∧ idx % 7 = 0 ∧ 7 ≤ idx then prev idx &&& 127
    else prev idx

/-- The decoder state the muting touches. -/
structure TCHDecState where
  mPrevGoodFrame : Nat → Nat

/-- One bad-frame substitution: mutate `mPrevGoodFrame` in place, then copy
it out as the frame sent to the speech channel. -/
def TCHFACCHL1Decoder.badFrameProcess (s : TCHDecState) (rand : Nat → Nat) :
    TCHDecState × (Nat → Nat) :=
  (⟨TCHFACCHL1Decoder.badFrameMutate s.mPrevGoodFrame rand⟩,
   TCHFACCHL1Decoder.badFrameMutate s.mPrevGoodFrame rand)

/-! ## The GSM 05.03 interleaver index map

`XCCHL1Encoder::interleave` (source lines 893-901) and
`TCHFACCHL1Encoder::interleave` (source lines 1430-1438) both place coded
bit `c[k]` at row `B` and column `j`:

* XCCH: `B = k % 4`, `j = 2*((49*k) % 57) + ((k%8)/4)`;
* TCH:  `B = (k + blockOffset) % 8`, same `j`.

`XCCHL1Decoder::deinterleave` (lines 655-668) and
`TCHFACCHL1Decoder::deinterleave` (lines 1140-1149) read the same cells
back. -/

/-- The column index `j = 2*((49*k) % 57) + ((k%8)/4)` shared by every
interleaver of the file. -/
def interJ (k : Nat) : Nat := 2 * ((49 * k) % 57) + k % 8 / 4

/-- The XCCH interleaver index map `k ↦ (B, j)` with `B = k % 4`. -/
def xcchIdx (k : Nat) : Nat × Nat := (k % 4, interJ k)

/-- The TCH/FACCH interleaver index map `k ↦ (B, j)` with
`B = (k + blockOffset) % 8`. -/
def tchIdx (blockOffset k : Nat) : Nat × Nat := ((k + blockOffset) % 8, interJ k)

/-- An explicit inverse of `xcchIdx`, found by the Chinese remainder theorem:
`k` is recovered from `k % 8 = B % 4 + 4*(j % 2)` and `(49*k) % 57 = j / 2`
(49 is invertible modulo 57, with inverse 7; 2800 = 400 * 7 and
400 % 57 * 8 % 57 = 1). -/
def interInv (B j : Nat) : Nat := (57 * (B % 4 + 4 * (j % 2)) + 2800 * (j / 2)) % 456

/-- The analogous inverse for the TCH map at a given block offset. -/
def tchInv (blockOffset B j : Nat) : Nat :=
  (57 * ((B + 8 - blockOffset % 8) % 8) + 2800 * (j / 2)) % 456

lemma interInv_xcchIdx : ∀ k, k < 456 → interInv (xcchIdx k).1 (xcchIdx k).2 = k := by
  decide

lemma xcchIdx_bounds : ∀ k, k < 456 → (xcchIdx k).1 < 4 ∧ (xcchIdx k).2 < 114 := by
  decide

lemma xcchIdx_surjOn : ∀ B, B < 4 → ∀ j, j < 114 →
    interInv B j < 456 ∧ xcchIdx (interInv B j) = (B, j) := by decide

lemma xcchIdx_inj {k1 k2 : Nat} (h1 : k1 < 456) (h2 : k2 < 456)
    (heq : xcchIdx k1 = xcchIdx k2) : k1 = k2 := by
  have e1 := interInv_xcchIdx k1 h1
  have e2 := interInv_xcchIdx k2 h2
  rw [heq] at e1
  omega

lemma tchInv_tchIdx : ∀ k, k < 456 →
    tchInv 0 (tchIdx 0 k).1 (tchIdx 0 k).2 = k ∧
    tchInv 4 (tchIdx 4 k).1 (tchIdx 4 k).2 = k := by decide

lemma tchIdx_bounds : ∀ k, k < 456 →
    (tchIdx 0 k).1 < 8 ∧ (tchIdx 4 k).1 < 8 ∧ (tchIdx 0 k).2 < 114 ∧
    (tchIdx 4 k).2 < 114 := by decide

/-- Each 456-bit block fills only one diagonal half of the 8 x 114 buffer:
with `blockOffset = 0` the column parity equals `B / 4`, with
`blockOffset = 4` it is the opposite. -/
lemma tchIdx_parity : ∀ k, k < 456 →
    (tchIdx 0 k).2 % 2 = (tchIdx 0 k).1 / 4 ∧
    (tchIdx 4 k).2 % 2 = 1 - (tchIdx 4 k).1 / 4 := by decide

lemma tchIdx_surj_parity : ∀ B, B < 8 → ∀ j, j < 114 →
    (j % 2 = B / 4 → tchInv 0 B j < 456 ∧ tchIdx 0 (tchInv 0 B j) = (B, j)) ∧
    (j % 2 ≠ B / 4 → tchInv 4 B j < 456 ∧ tchIdx 4 (tchInv 4 B j) = (B, j)) := by
  decide

/-! ## Deinterleaving buffer state (XCCH)

`XCCHL1Decoder::deinterleave` (source lines 655-668):

```
for (int k=0; k<456; k++) {
  int B = k%4;
  int j = 2*((49*k) % 57) + ((k%8)/4);
  mC[k] = mI[B][j];
  mI[B][j] = 0.5F;
}
```

The soft-bit buffers `mI[0..3]` (114 soft bits each) and `mC` (456 soft
bits) are modelled as total functions into `ℚ`; indices outside the real
bounds are never touched by the loop. -/

/-- The decoder state touched by `XCCHL1Decoder::deinterleave`: the four
deinterleaving rows `mI` and the coded-bit vector `mC`. -/
structure XCCHDeintState where
  mI : Nat → Nat → ℚ
  mC : Nat → ℚ

/-- One iteration of the deinterleave loop at index `k`: copy `mI[B][j]`
into `mC[k]`, then mark that `mI` cell as unknown (0.5). -/
def XCCHL1Decoder.deintStep (s : XCCHDeintState) (k : Nat) : XCCHDeintState where
  mC := fun k' => if k' = k then s.mI (k % 4) (interJ k) else s.mC k'
  mI := fun B j => if B = k % 4 ∧ j = interJ k then 1 / 2 else s.mI B j

/-- The first `n` iterations of the deinterleave loop, in order. -/
def XCCHL1Decoder.deintRun (s : XCCHDeintState) : Nat → XCCHDeintState
  | 0 => s
  | n + 1 => XCCHL1Decoder.deintStep (XCCHL1Decoder.deintRun s n) n

/-- `XCCHL1Decoder::deinterleave`: the full 456-iteration loop. -/
def XCCHL1Decoder.deinterleave (s : XCCHDeintState) : XCCHDeintState :=
  XCCHL1Decoder.deintRun s 456

lemma deintRun_mI (s : XCCHDeintState) :
    ∀ n, ∀ B j, (XCCHL1Decoder.deintRun s n).mI B j =
      if ∃ k, k < n ∧ xcchIdx k = (B, j) then 1 / 2 else s.mI B j := by
  intro n
  induction n with
  | zero => intro B j; simp [XCCHL1Decoder.deintRun]
  | succ n ih =>
    intro B j
    show (XCCHL1Decoder.deintStep (XCCHL1Decoder.deintRun s n) n).mI B j = _
    simp only [XCCHL1Decoder.deintStep]
    by_cases hbj : B = n % 4 ∧ j = interJ n
    · have hex : ∃ k, k < n + 1 ∧ xcchIdx k = (B, j) :=
        ⟨n, Nat.lt_succ_self n, by simp [xcchIdx, hbj.1, hbj.2]⟩
      rw [if_pos hbj, if_pos hex]
    · rw [if_neg hbj, ih B j]
      by_cases hex : ∃ k, k < n ∧ xcchIdx k = (B, j)
      · obtain ⟨k, hk, he⟩ := hex
        rw [if_pos ⟨k, hk, he⟩, if_pos ⟨k, Nat.lt_succ_of_lt hk, he⟩]
      · have hex' : ¬∃ k, k < n + 1 ∧ xcchIdx k = (B, j) := by
          rintro ⟨k, hk, he⟩
          rcases Nat.lt_succ_iff_lt_or_eq.mp hk with hlt | rfl
          · exact hex ⟨k, hlt, he⟩
          · have : B = k % 4 ∧ j = interJ k := by
              have := congrArg Prod.fst he
              have := congrArg Prod.snd he
              simp [xcchIdx] at *
              omega
            exact hbj this
        rw [if_neg hex, if_neg hex']

lemma deintRun_mC (s : XCCHDeintState) :
    ∀ n, n ≤ 456 → ∀ k,
      (k < n → (XCCHL1Decoder.deintRun s n).mC k = s.mI (k % 4) (interJ k)) ∧
      (n ≤ k → (XCCHL1Decoder.deintRun s n).mC k = s.mC k) := by
  intro n
  induction n with
  | zero => intro _ k; exact ⟨fun h => absurd h (Nat.not_lt_zero k), fun _ => rfl⟩
  | succ n ih =>
    intro hn k
    have hn' : n ≤ 456 := by omega
    have hC : (XCCHL1Decoder.deintRun s (n + 1)).mC k =
        if k = n then (XCCHL1Decoder.deintRun s n).mI (n % 4) (interJ n)
        else (XCCHL1Decoder.deintRun s n).mC k := rfl
    constructor
    · intro hk
      rcases Nat.lt_succ_iff_lt_or_eq.mp hk with hlt | rfl
      · rw [hC, if_neg (by omega), (ih hn' k).1 hlt]
      · rw [hC, if_pos rfl, deintRun_mI s k (k % 4) (interJ k)]
        have hnone : ¬∃ k', k' < k ∧ xcchIdx k' = (k % 4, interJ k) := by
          rintro ⟨k', hk', he⟩
          have : xcchIdx k' = xcchIdx k := he
          have := xcchIdx_inj (by omega) (by omega) this
          omega
        rw [if_neg hnone]
    · intro hk
      rw [hC, if_neg (by omega), (ih hn' k).2 (by omega)]

/-! ## Theorems for the interleaver claims -/

/-- Claim C2 counterexample: over `k ∈ [0, 456)` the TCH interleaver with
`blockOffset = 0` never produces the pair `(B, j) = (0, 1)`, even though
`(0, 1) ∈ [0, 8) × [0, 114)`; a single 456-bit block covers only half of
the 8 x 114 diagonal buffer, so its image cannot be all of
`[0, 8) × [0, 114)`. -/
theorem tchIdx_image_misses_pair :
    (∀ k, k < 456 → tchIdx 0 k ≠ (0, 1)) ∧ (0 : Nat) < 8 ∧ (1 : Nat) < 114 := by
  decide

/-- Claim C2 (amended): the XCCH interleaver index map is a bijection from
`[0, 456)` onto `[0, 4) × [0, 114)`.  The TCH map (for either of the two
block offsets 0 and 4 used by the code) is injective on `[0, 456)`, lands
in `[0, 8) × [0, 114)`, and the two offsets produce complementary halves of
that rectangle: `blockOffset = 0` yields exactly the cells with
`j % 2 = B / 4` and `blockOffset = 4` exactly those with `j % 2 ≠ B / 4`,
so the two 456-bit blocks together cover `[0, 8) × [0, 114)` exactly
once. -/
theorem interleaver_bijection :
    (∀ k, k < 456 → (xcchIdx k).1 < 4 ∧ (xcchIdx k).2 < 114) ∧
    (∀ B, B < 4 → ∀ j, j < 114 → ∃ k, k < 456 ∧ xcchIdx k = (B, j)) ∧
    (∀ k1, k1 < 456 → ∀ k2, k2 < 456 → xcchIdx k1 = xcchIdx k2 → k1 = k2) ∧
    (∀ off, (off = 0 ∨ off = 4) → ∀ k, k < 456 →
      (tchIdx off k).1 < 8 ∧ (tchIdx off k).2 < 114) ∧
    (∀ off, (off = 0 ∨ off = 4) → ∀ k1, k1 < 456 → ∀ k2, k2 < 456 →
      tchIdx off k1 = tchIdx off k2 → k1 = k2) ∧
    (∀ B, B < 8 → ∀ j, j < 114 →
      ((∃ k, k < 456 ∧ tchIdx 0 k = (B, j)) ↔ j % 2 = B / 4) ∧
      ((∃ k, k < 456 ∧ tchIdx 4 k = (B, j)) ↔ j % 2 ≠ B / 4)) := by
  refine ⟨xcchIdx_bounds, ?_, ?_, ?_, ?_, ?_⟩
  · intro B hB j hj
    obtain ⟨hlt, he⟩ := xcchIdx_surjOn B hB j hj
    exact ⟨interInv B j, hlt, he⟩
  · intro k1 h1 k2 h2 heq
    exact xcchIdx_inj h1 h2 heq
  · rintro off (rfl | rfl) k hk
    · exact ⟨(tchIdx_bounds k hk).1, (tchIdx_bounds k hk).2.2.1⟩
    · exact ⟨(tchIdx_bounds k hk).2.1, (tchIdx_bounds k hk).2.2.2⟩
  · rintro off (rfl | rfl) k1 h1 k2 h2 heq
    · have e1 := (tchInv_tchIdx k1 h1).1
      have e2 := (tchInv_tchIdx k2 h2).1
      rw [heq] at e1
      omega
    · have e1 := (tchInv_tchIdx k1 h1).2
      have e2 := (tchInv_tchIdx k2 h2).2
      rw [heq] at e1
      omega
  · intro B hB j hj
    constructor
    · constructor
      · rintro ⟨k, hk, he⟩
        have hp := (tchIdx_parity k hk).1
        rw [he] at hp
        exact hp
      · intro hpar
        obtain ⟨hlt, he⟩ := (tchIdx_surj_parity B hB j hj).1 hpar
        exact ⟨tchInv 0 B j, hlt, he⟩
    · constructor
      · rintro ⟨k, hk, he⟩
        have hp := (tchIdx_parity k hk).2
        rw [he] at hp
        simp only at hp
        omega
      · intro hpar
        obtain ⟨hlt, he⟩ := (tchIdx_surj_parity B hB j hj).2 hpar
        exact ⟨tchInv 4 B j, hlt, he⟩

/-- Claim C3: XCCH deinterleaving copies, for every `k ∈ [0, 456)`, the soft
bit `mI[k % 4][2*((49*k) % 57) + ((k % 8)/4)]` (its value before the loop
started) into `mC[k]`, and then sets that `mI` cell to 0.5; consequently
every cell of the four deinterleave rows equals 0.5 after a deinterleave,
so a burst missing from the following four-burst frame contributes only the
neutral confidence 0.5 and does not contaminate that frame's decode. -/
theorem xcch_deinterleave_correct (s : XCCHDeintState) :
    (∀ k, k < 456 →
      (XCCHL1Decoder.deinterleave s).mC k = s.mI (k % 4) (interJ k)) ∧
    (∀ B, B < 4 → ∀ j, j < 114 →
      (XCCHL1Decoder.deinterleave s).mI B j = 1 / 2) := by
  constructor
  · intro k hk
    exact (deintRun_mC s 456 le_rfl k).1 hk
  · intro B hB j hj
    show (XCCHL1Decoder.deintRun s 456).mI B j = 1 / 2
    rw [deintRun_mI s 456 B j]
    obtain ⟨hlt, he⟩ := xcchIdx_surjOn B hB j hj
    rw [if_pos ⟨interInv B j, hlt, he⟩]

/-! ## Decoder lifecycle: `active` and `recyclable`

`L1Decoder::active` (source lines 354-360) and `L1Decoder::recyclable`
(source lines 363-369).  The state the two inspectors read: the `mActive`
flag and the expiry status of the three timers T3101, T3109, T3111. -/

/-- The part of `L1Decoder`'s state read by `active`/`recyclable`. -/
structure L1DecoderState where
  mActive : Bool
  mT3101expired : Bool
  mT3109expired : Bool
  mT3111expired : Bool

/-- `L1Decoder::recyclable`:
`mT3101.expired() || mT3109.expired() || mT3111.expired()`. -/
def L1Decoder.recyclable (s : L1DecoderState) : Bool :=
  s.mT3101expired || s.mT3109expired || s.mT3111expired

/-- `L1Decoder::active`: `mActive && !recyclable()`. -/
def L1Decoder.active (s : L1DecoderState) : Bool :=
  s.mActive && !(L1Decoder.recyclable s)

/-! ## RACH decoder

`RACHL1Decoder::writeLowSide` (source lines 476-532).  The burst's e-bits
are Viterbi-decoded into the 18-bit `mU` (with `mD = mU` bits 0..7); the
checks and the forwarded values are then pure functions of `mU`, the
decoded parity word, the configured BSIC and the burst's measurements.  The
embedding takes the decoded `mU` directly (the soft-decision Viterbi
decoder lives outside this file's claims) and the parity computation
`mD.parity(mParity)` as an abstract function of the bits (the `Parity`
object is constructed in GSML1FEC.h, outside the repository's staged
sources). -/

/-- `BitVector::peekField(offset, len)`: read `len` bits MSB-first starting
at bit `offset`; each step shifts the accumulator left and adds the next
bit, so `peekField u o (n+1) = 2 * peekField u o n + u (o+n)`. -/
def peekField (u : Nat → Bool) (offset : Nat) : Nat → Nat
  | 0 => 0
  | n + 1 => 2 * peekField u offset n + (if u (offset + n) then 1 else 0)

/-- `BitVector::LSB8MSB()` on the 8-bit `mD` view: reverse the bit order
within the octet. -/
def lsb8msb8 (u : Nat → Bool) : Nat → Bool := fun i => if i < 8 then u (7 - i) else u i

/-- The two clamping statements of source lines 515-516:
`if (initialTA<0) initialTA=0; if (initialTA>63) initialTA=63;`. -/
def clampTA (x : ℤ) : ℤ :=
  if (if x < 0 then 0 else x) > 63 then 63 else if x < 0 then 0 else x

/-- A C cast `(int)` of a real value: truncation toward zero (`Int`
division truncates toward zero). -/
def cIntTrunc (q : ℚ) : ℤ := q.num / (q.den : ℤ)

/-- A received RACH access burst after Viterbi decoding: the 18 decoded
`mU` bits, and the burst's timing error, receive time and RSSI. -/
structure RachBurst where
  u : Nat → Bool
  timingError : ℚ
  time : Nat
  rssi : ℚ

/-- What one call of `RACHL1Decoder::writeLowSide` does: the tuple passed to
`mUpstream->writeLowSide` (if any) and the good/bad frame counts. -/
structure RachResult where
  forwarded : Option (Nat × Nat × ℚ × ℤ)
  goodFrames : Nat
  badFrames : Nat
  deriving DecidableEq

/-- `RACHL1Decoder::writeLowSide` (source lines 476-532): check the tail
bits `u[14..17]`, then the BSIC-XORed parity (`sentParity = ~u[8..13]`;
`encodedBSIC = (sentParity ^ checkParity) & 0x3f`); on failure count a bad
frame and return; on success count a good frame, reverse `d`'s bit order
(`LSB8MSB`), read `RA = d[0..7]`, round and clamp the timing error, and
forward `(RA, time, RSSI, TA)`.  The complement `~` is applied to a C
unsigned value; only its low 6 bits survive the `& 0x3f`, so it is
modelled as `63 ^^^ ·`. -/
def RACHL1Decoder.writeLowSide (bsic : Nat) (parityOfD : (Nat → Bool) → Nat)
    (b : RachBurst) : RachResult :=
  if peekField b.u 14 4 ≠ 0 then ⟨none, 0, 1⟩
  else if ((63 ^^^ peekField b.u 8 6) ^^^ parityOfD b.u) &&& 63 ≠ bsic then ⟨none, 0, 1⟩
  else
    ⟨some (peekField (lsb8msb8 b.u) 0 8, b.time, b.rssi,
      clampTA (cIntTrunc (b.timingError + 1 / 2))), 1, 0⟩

lemma peekField_eq_sum (u : Nat → Bool) (offset : Nat) :
    ∀ n, peekField u offset n =
      ∑ i ∈ Finset.range n, 2 ^ (n - 1 - i) * (if u (offset + i) then 1 else 0) := by
  intro n
  induction n with
  | zero => simp [peekField]
  | succ n ih =>
    have step : peekField u offset (n + 1) =
        2 * peekField u offset n + (if u (offset + n) then 1 else 0) := rfl
    have hterm : ∀ i ∈ Finset.range n,
        2 * (2 ^ (n - 1 - i) * (if u (offset + i) then 1 else 0)) =
        2 ^ (n + 1 - 1 - i) * (if u (offset + i) then 1 else 0) := by
      intro i hi
      rw [Finset.mem_range] at hi
      have he : n + 1 - 1 - i = (n - 1 - i) + 1 := by omega
      rw [he, pow_succ]
      ring
    have hlast : (2:Nat) ^ (n + 1 - 1 - n) = 1 := by
      have he : n + 1 - 1 - n = 0 := by omega
      rw [he, pow_zero]
    rw [step, ih, Finset.sum_range_succ, Finset.mul_sum,
      Finset.sum_congr rfl hterm, hlast, one_mul]

/-- `LSB8MSB` followed by an MSB-first read of the octet yields the
LSB-first value of the original bits. -/
lemma RA_value (u : Nat → Bool) :
    peekField (lsb8msb8 u) 0 8 = ∑ i ∈ Finset.range 8, (if u i then 2 ^ i else 0) := by
  rw [peekField_eq_sum]
  have h1 : ∀ i ∈ Finset.range 8,
      2 ^ (8 - 1 - i) * (if lsb8msb8 u (0 + i) then 1 else 0) =
      (if u (7 - i) then 2 ^ (7 - i) else 0) := by
    intro i hi
    rw [Finset.mem_range] at hi
    have h0 : 0 + i = i := Nat.zero_add i
    have h7 : (8:Nat) - 1 - i = 7 - i := by omega
    rw [h0, lsb8msb8, if_pos hi, h7]
    cases u (7 - i) <;> simp
  rw [Finset.sum_congr rfl h1]
  exact Finset.sum_range_reflect (fun i => if u i then 2 ^ i else 0) 8

lemma clampTA_eq (x : ℤ) : clampTA x = min 63 (max 0 x) := by
  rw [clampTA]
  split_ifs <;> omega

lemma tailBits_zero_iff (u : Nat → Bool) :
    peekField u 14 4 = 0 ↔
      (u 14 = false ∧ u 15 = false ∧ u 16 = false ∧ u 17 = false) := by
  have e : peekField u 14 4 =
      2 * (2 * (2 * (2 * 0 + (if u 14 then 1 else 0)) + (if u 15 then 1 else 0)) +
        (if u 16 then 1 else 0)) + (if u 17 then 1 else 0) := rfl
  rw [e]
  cases u 14 <;> cases u 15 <;> cases u 16 <;> cases u 17 <;> simp

/-- Claim C1: the RACH decoder, on each received access burst, forwards an
`(RA, burst time, RSSI, TA)` tuple to Layer 2 if and only if both the four
tail bits `u[14..17]` are zero and the parity check
`(~u[8..13] XOR parity(d)) & 0x3F` equals the configured BSIC; on either
check failing it only counts a bad frame and forwards nothing; on
acceptance `RA` is the LSB8MSB-reversed `d[0..7]` (the little-endian value
of the first 8 decoded bits) and `TA` is the burst's timing error rounded
(`+0.5` then truncation toward zero) then clamped into `[0, 63]`. -/
theorem rach_forwards_iff_checks (bsic : Nat) (parityOfD : (Nat → Bool) → Nat)
    (b : RachBurst) :
    ((RACHL1Decoder.writeLowSide bsic parityOfD b).forwarded.isSome ↔
      peekField b.u 14 4 = 0 ∧
        ((63 ^^^ peekField b.u 8 6) ^^^ parityOfD b.u) &&& 63 = bsic) ∧
    (peekField b.u 14 4 = 0 ↔
      (b.u 14 = false ∧ b.u 15 = false ∧ b.u 16 = false ∧ b.u 17 = false)) ∧
    (¬(peekField b.u 14 4 = 0 ∧
        ((63 ^^^ peekField b.u 8 6) ^^^ parityOfD b.u) &&& 63 = bsic) →
      RACHL1Decoder.writeLowSide bsic parityOfD b = ⟨none, 0, 1⟩) ∧
    (peekField b.u 14 4 = 0 →
      ((63 ^^^ peekField b.u 8 6) ^^^ parityOfD b.u) &&& 63 = bsic →
      RACHL1Decoder.writeLowSide bsic parityOfD b =
        ⟨some (∑ i ∈ Finset.range 8, (if b.u i then 2 ^ i else 0),
          b.time, b.rssi,
          min 63 (max 0 (cIntTrunc (b.timingError + 1 / 2)))), 1, 0⟩) := by
  by_cases htail : peekField b.u 14 4 = 0
  · by_cases hpar : ((63 ^^^ peekField b.u 8 6) ^^^ parityOfD b.u) &&& 63 = bsic
    · have hres : RACHL1Decoder.writeLowSide bsic parityOfD b =
          ⟨some (peekField (lsb8msb8 b.u) 0 8, b.time, b.rssi,
            clampTA (cIntTrunc (b.timingError + 1 / 2))), 1, 0⟩ := by
        rw [RACHL1Decoder.writeLowSide, if_neg (not_not_intro htail),
          if_neg (not_not_intro hpar)]
      refine ⟨?_, tailBits_zero_iff b.u, ?_, ?_⟩
      · rw [hres]
        simp [htail, hpar]
      · intro hno
        exact absurd ⟨htail, hpar⟩ hno
      · intro _ _
        rw [hres, RA_value, clampTA_eq]
    · have hres : RACHL1Decoder.writeLowSide bsic parityOfD b = ⟨none, 0, 1⟩ := by
        rw [RACHL1Decoder.writeLowSide, if_neg (not_not_intro htail), if_pos hpar]
      refine ⟨?_, tailBits_zero_iff b.u, fun _ => hres, fun _ hp => absurd hp hpar⟩
      rw [hres]
      simp [hpar]
  · have hres : RACHL1Decoder.writeLowSide bsic parityOfD b = ⟨none, 0, 1⟩ := by
      rw [RACHL1Decoder.writeLowSide, if_pos htail]
    refine ⟨?_, tailBits_zero_iff b.u, fun _ => hres, fun ht => absurd ht htail⟩
    rw [hres]
    simp [htail]

/-! ## Theorems for the power control claims -/

/-- Claim C4: for every band's 32-entry power table and every code
`c ∈ [0, 31]`, the round trip `encodePower (decodePower c)` yields a code
`c'` with `table[c'] = table[c]`: the commanded dBm value is preserved even
where the table is not injective. -/
theorem power_roundtrip_preserves_dBm : ∀ c, c < 32 →
    decodePower powerCommandLowBand
        (encodePower powerCommandLowBand (decodePower powerCommandLowBand c)) =
      decodePower powerCommandLowBand c ∧
    decodePower powerCommand1800
        (encodePower powerCommand1800 (decodePower powerCommand1800 c)) =
      decodePower powerCommand1800 c ∧
    decodePower powerCommand1900
        (encodePower powerCommand1900 (decodePower powerCommand1900 c)) =
      decodePower powerCommand1900 c := by decide

/-- Witness for C4 at the concrete code 0. -/
theorem power_roundtrip_preserves_dBm_witness :
    decodePower powerCommandLowBand
        (encodePower powerCommandLowBand (decodePower powerCommandLowBand 0)) =
      decodePower powerCommandLowBand 0 :=
  (power_roundtrip_preserves_dBm 0 (by decide)).1

/-- Claim C5 counterexample: at 39 dBm on the low band, code 0 already
attains the minimum distance `|39 - table[0]| = 0`, yet `encodePower`
returns code 1 (the loop's `thisErr==0` early return fires at `i = 1`
before the initial accumulator `code = 0` can win), so `encodePower` does
not return the first (lowest-numbered) minimizer. -/
theorem encodePower_not_first_minimizer :
    encodePower powerCommandLowBand 39 = 1 ∧
    ((39 : ℤ) - decodePower powerCommandLowBand 0).natAbs = 0 ∧ (0 : Nat) ≠ 1 := by
  decide

/-! ## Theorem for the TCH/FACCH deinterleave phase claim -/

/-- Claim C6 counterexample: a frame whose final burst arrives with reverse
mapping index `B = 7` (so the frame was delivered in bursts `B = 4..7`) is
deinterleaved with `blockOffset = 0`, not `blockOffset = 4` as the claim
states. -/
theorem tch_deintOffset_B7_is_zero :
    TCHFACCHL1Decoder.deintOffset 7 = some 0 ∧ 4 ≤ 7 ∧ (0 : Nat) ≠ 4 := by decide

/-- Claim C6 (amended): the deinterleave block offset is always 0 or 4 and
alternates between the two half-frames, but with the opposite pairing from
the claim: deinterleaving happens exactly when the arriving burst has
`B % 4 = 3`; a frame whose final burst has `B = 3` is deinterleaved with
`blockOffset = 4`, and one whose final burst has `B = 7` with
`blockOffset = 0`. -/
theorem tch_deintOffset_correct : ∀ B, B < 8 →
    ((TCHFACCHL1Decoder.deintOffset B).isSome ↔ B % 4 = 3) ∧
    (∀ off, TCHFACCHL1Decoder.deintOffset B = some off → off = 0 ∨ off = 4) ∧
    TCHFACCHL1Decoder.deintOffset 3 = some 4 ∧
    TCHFACCHL1Decoder.deintOffset 7 = some 0 := by decide

/-- Witness for C6 (amended) at the concrete burst index `B = 3`. -/
theorem tch_deintOffset_correct_witness :
    (TCHFACCHL1Decoder.deintOffset 3).isSome ↔ (3 : Nat) % 4 = 3 :=
  (tch_deintOffset_correct 3 (by decide)).1

/-! ## Theorem for the decoder lifecycle claim -/

/-- Claim C7: for every decoder state, `recyclable` returns true exactly when
at least one of T3101, T3109, T3111 has expired, and `active` returns true
exactly when the decoder's `mActive` flag is set and it is not recyclable;
hence once any of the three timers expires, `active` is false. -/
theorem decoder_active_iff_open_not_recyclable (s : L1DecoderState) :
    (L1Decoder.recyclable s = true ↔
      (s.mT3101expired = true ∨ s.mT3109expired = true ∨ s.mT3111expired = true)) ∧
    (L1Decoder.active s = true ↔
      (s.mActive = true ∧ L1Decoder.recyclable s = false)) ∧
    ((s.mT3101expired = true ∨ s.mT3109expired = true ∨ s.mT3111expired = true) →
      L1Decoder.active s = false) := by
  rcases s with ⟨a, t1, t2, t3⟩
  cases a <;> cases t1 <;> cases t2 <;> cases t3 <;>
    simp [L1Decoder.active, L1Decoder.recyclable]

/-! ## Theorems for the `encodePower` minimizer claim -/

lemma epLoop_zero (table : List ℤ) (power : ℤ) (i code minErr : Nat) :
    epLoop table power 0 i code minErr = code := rfl

lemma epLoop_succ (table : List ℤ) (power : ℤ) (n i code minErr : Nat) :
    epLoop table power (n + 1) i code minErr =
      if (power - table.getD i 0).natAbs = 0 then i
      else if (power - table.getD i 0).natAbs < minErr then
        epLoop table power n (i + 1) i (power - table.getD i 0).natAbs
      else epLoop table power n (i + 1) code minErr := rfl

lemma epLoop_spec (table : List ℤ) (power : ℤ) :
    ∀ n i code minErr, i + n = 32 → code < i →
    minErr = (power - table.getD code 0).natAbs →
    (∀ j, j < i → minErr ≤ (power - table.getD j 0).natAbs) →
    (∀ j, j < code → minErr < (power - table.getD j 0).natAbs) →
    (∀ j, 1 ≤ j → j < i → (power - table.getD j 0).natAbs ≠ 0) →
    epLoop table power n i code minErr < 32 ∧
    (∀ c, c < 32 →
      (power - table.getD (epLoop table power n i code minErr) 0).natAbs ≤
        (power - table.getD c 0).natAbs) ∧
    (∀ c, c < epLoop table power n i code minErr →
      (power - table.getD c 0).natAbs =
        (power - table.getD (epLoop table power n i code minErr) 0).natAbs →
      c = 0 ∧ (power - table.getD (epLoop table power n i code minErr) 0).natAbs = 0) := by
  intro n
  induction n with
  | zero =>
    intro i code minErr hin hci hme hmin hstrict _
    rw [epLoop_zero]
    refine ⟨by omega, ?_, ?_⟩
    · intro c hc
      have h1 := hmin c (by omega)
      omega
    · intro c hc heq
      have h2 := hstrict c hc
      omega
  | succ n ih =>
    intro i code minErr hin hci hme hmin hstrict hnz
    rw [epLoop_succ]
    by_cases h0 : (power - table.getD i 0).natAbs = 0
    · rw [if_pos h0]
      refine ⟨by omega, ?_, ?_⟩
      · intro c _
        rw [h0]
        exact Nat.zero_le _
      · intro c hc heq
        rw [h0] at heq
        refine ⟨?_, h0⟩
        by_contra hc0
        exact hnz c (by omega) (by omega) heq
    · by_cases hlt : (power - table.getD i 0).natAbs < minErr
      · rw [if_neg h0, if_pos hlt]
        refine ih (i + 1) i _ (by omega) (by omega) rfl ?_ ?_ ?_
        · intro j hj
          rcases Nat.lt_succ_iff_lt_or_eq.mp hj with hjlt | rfl
          · have := hmin j hjlt
            omega
          · exact le_rfl
        · intro j hj
          have := hmin j (by omega)
          omega
        · intro j h1 hj
          rcases Nat.lt_succ_iff_lt_or_eq.mp hj with hjlt | rfl
          · exact hnz j h1 hjlt
          · exact h0
      · rw [if_neg h0, if_neg hlt]
        refine ih (i + 1) code minErr (by omega) (by omega) hme ?_ hstrict ?_
        · intro j hj
          rcases Nat.lt_succ_iff_lt_or_eq.mp hj with hjlt | rfl
          · exact hmin j hjlt
          · omega
        · intro j h1 hj
          rcases Nat.lt_succ_iff_lt_or_eq.mp hj with hjlt | rfl
          · exact hnz j h1 hjlt
          · exact h0

/-- Claim C5 (amended): for every dBm input and every band table,
`encodePower` returns a code in `[0, 32)` minimizing `|dBm - table[code]|`;
on ties it returns the first such code, except that a tie with code 0 at
distance 0 is lost to the lowest code `>= 1` also at distance 0 (the loop's
`thisErr==0` early return starts at index 1, so code 0 can never win a
zero-distance tie against a later code). -/
theorem encodePower_minimizes (table : List ℤ) (power : ℤ) :
    encodePower table power < 32 ∧
    (∀ c, c < 32 →
      (power - table.getD (encodePower table power) 0).natAbs ≤
        (power - table.getD c 0).natAbs) ∧
    (∀ c, c < encodePower table power →
      (power - table.getD c 0).natAbs =
        (power - table.getD (encodePower table power) 0).natAbs →
      c = 0 ∧ (power - table.getD (encodePower table power) 0).natAbs = 0) := by
  refine epLoop_spec table power 31 1 0 _ (by omega) (by omega) rfl ?_ ?_ ?_
  · intro j hj
    have hj0 : j = 0 := by omega
    rw [hj0]
  · intro j hj
    exact absurd hj (Nat.not_lt_zero j)
  · intro j h1 hj
    omega

/-! ## Theorems for the SACCH control-loop claim -/

/-- Claim C8 counterexample: `SACCHL1Encoder::open` sets the ordered MS
power to 33 dBm unconditionally, so with a configuration whose
`GSM.MS.Power.Max` is 30 dBm the claimed bound
`ordered_MS_power <= max_power` is already violated immediately after
`open()`, before any closed-loop update runs. -/
theorem sacch_open_exceeds_max :
    SACCHL1Encoder.openEnc.mOrderedMSPower = 33 ∧
    ¬(SACCHL1Encoder.openEnc.mOrderedMSPower ≤ (30 : ℚ)) := by
  constructor
  · rfl
  · rw [show SACCHL1Encoder.openEnc.mOrderedMSPower = (33 : ℚ) from rfl]
    norm_num

/-- Claim C8 (amended): `open()` sets the ordered values to exactly 33 dBm
and 0 symbols; after each closed-loop update performed in `sendFrame` (one
with fresh sibling measurements), the ordered power lies in
`[min_power, max_power]` whenever `min_power <= max_power`, and the ordered
timing lies in `[0, max_TA]` whenever `0 <= max_TA`; the after-`open()`
values satisfy those bounds only when the configuration brackets them
(`min_power <= 33 <= max_power`). -/
theorem sacch_update_bounded (cfg : SACCHConfig) (sib : SACCHMeasurements)
    (s : SACCHEncState) (hphy : sib.phyNew = true)
    (hp : cfg.powerMin ≤ cfg.powerMax) (ht : 0 ≤ cfg.taMax) :
    SACCHL1Encoder.openEnc = ⟨33, 0⟩ ∧
    cfg.powerMin ≤ (SACCHL1Encoder.sendFrameUpdate cfg sib s).mOrderedMSPower ∧
    (SACCHL1Encoder.sendFrameUpdate cfg sib s).mOrderedMSPower ≤ cfg.powerMax ∧
    0 ≤ (SACCHL1Encoder.sendFrameUpdate cfg sib s).mOrderedMSTiming ∧
    (SACCHL1Encoder.sendFrameUpdate cfg sib s).mOrderedMSTiming ≤ cfg.taMax := by
  rw [SACCHL1Encoder.sendFrameUpdate, if_pos hphy]
  refine ⟨rfl, ?_, ?_, ?_, ?_⟩ <;>
    · dsimp only
      split_ifs <;> linarith

/-- Witness for C8 (amended) at a concrete configuration, measurement and
state. -/
theorem sacch_update_bounded_witness :
    (5 : ℚ) ≤ (SACCHL1Encoder.sendFrameUpdate ⟨(-40), 33, 5, 50, 63, 50⟩
      ⟨(-30), 20, 1, 2, true⟩ ⟨33, 0⟩).mOrderedMSPower ∧
    (SACCHL1Encoder.sendFrameUpdate ⟨(-40), 33, 5, 50, 63, 50⟩
      ⟨(-30), 20, 1, 2, true⟩ ⟨33, 0⟩).mOrderedMSPower ≤ (33 : ℚ) :=
  ⟨(sacch_update_bounded ⟨(-40), 33, 5, 50, 63, 50⟩ ⟨(-30), 20, 1, 2, true⟩
      ⟨33, 0⟩ rfl (by norm_num) (by norm_num)).2.1,
   (sacch_update_bounded ⟨(-40), 33, 5, 50, 63, 50⟩ ⟨(-30), 20, 1, 2, true⟩
      ⟨33, 0⟩ rfl (by norm_num) (by norm_num)).2.2.1⟩

/-! ## Theorem for the FACCH dispatch claim -/

/-- Claim C9: whenever the TCH/FACCH encoder's dispatch selects a queued
FACCH frame for a 4-burst block, it deletes every frame then in the speech
queue (the flush `while (mSpeechQ.size()>0) delete mSpeechQ.read();` runs
unconditionally in the FACCH branch), so the speech queue is empty when
that block's interleaving and transmission begin - a stronger discard than
the head-drop down to `GSM.MaxSpeechLatency` applied on every iteration. -/
theorem facch_flushes_speech_queue {α β : Type} (maxQ : Nat) (s : TCHEncQueues α β)
    (h : s.mL2Q ≠ []) :
    (TCHFACCHL1Encoder.dispatch maxQ s).2 = DispatchChoice.facch ∧
    (TCHFACCHL1Encoder.dispatch maxQ s).1.mSpeechQ = [] := by
  rcases s with ⟨l2, sp⟩
  cases l2 with
  | nil => exact absurd rfl h
  | cons a t => exact ⟨rfl, rfl⟩

/-- Witness for C9: a concrete dispatch with one queued FACCH frame and two
queued speech frames. -/
theorem facch_flushes_speech_queue_witness :
    (TCHFACCHL1Encoder.dispatch 8 (⟨[0], [1, 2]⟩ : TCHEncQueues Nat Nat)).2 =
      DispatchChoice.facch ∧
    (TCHFACCHL1Encoder.dispatch 8 (⟨[0], [1, 2]⟩ : TCHEncQueues Nat Nat)).1.mSpeechQ =
      [] :=
  facch_flushes_speech_queue 8 ⟨[0], [1, 2]⟩ (by simp)

/-! ## Theorems for the bad-frame muting claim -/

/-- Claim C10 counterexample: the random grid position is OR-ed into the
same low bits as the attenuated xmaxc, so consecutive bad frames do not
attenuate xmaxc by exactly 2 per frame.  Starting from a previous good
frame whose byte 27 is 4 (xmaxc = 4) and with `random() % 4 = 1` each time,
the first bad frame stores low-5 field `(4-2) | 1 = 3` and the second
stores `(3-2) | 1 = 1`; the claimed "attenuate by a further 2 down to the
floor of 0" would give 0 after two bad frames. -/
theorem tch_mute_attenuation_contaminated :
    ((TCHFACCHL1Decoder.badFrameProcess
        (TCHFACCHL1Decoder.badFrameProcess ⟨fun _ => 4⟩ (fun _ => 1)).1
        (fun _ => 1)).2 27) &&& 31 = 1 ∧ (1 : Nat) ≠ 0 := by
  decide

/-- Claim C10 (amended): bad-frame muting mutates the stored
previous-good-frame buffer in place, writing
`(rawByte & 0x80) | (random()%4) | attenuated_xmaxc` into bytes 6, 13, 20,
27 and clearing the top bit of bytes 7, 14, 21, 28 (all other bytes
unchanged), before copying the mutated buffer out; the unmodified good
frame is never restored.  Each consecutive bad frame attenuates the stored
xmaxc by a further 2 (down to the floor of 0) exactly when the random
position's bits are already contained in the attenuated xmaxc (in
particular whenever the drawn position is 0); otherwise the OR contaminates
the stored field. -/
theorem tch_badframe_mutation (prev rand : Nat → Nat) :
    (∀ i, i < 4 →
      (TCHFACCHL1Decoder.badFrameProcess ⟨prev⟩ rand).2 (6 + 7 * i) =
        (prev 27 &&& 128) ||| (rand i % 4) ||| attenuateXmaxc (prev 27 &&& 31)) ∧
    (∀ i, i < 4 →
      (TCHFACCHL1Decoder.badFrameProcess ⟨prev⟩ rand).2 (7 + 7 * i) =
        prev (7 + 7 * i) &&& 127) ∧
    (∀ idx, idx < 33 → idx % 7 ≠ 6 → ¬(idx % 7 = 0 ∧ 7 ≤ idx) →
      (TCHFACCHL1Decoder.badFrameProcess ⟨prev⟩ rand).2 idx = prev idx) ∧
    (TCHFACCHL1Decoder.badFrameProcess ⟨prev⟩ rand).1.mPrevGoodFrame =
      (TCHFACCHL1Decoder.badFrameProcess ⟨prev⟩ rand).2 ∧
    ((rand 3 % 4) ||| attenuateXmaxc (prev 27 &&& 31) =
        attenuateXmaxc (prev 27 &&& 31) →
      (TCHFACCHL1Decoder.badFrameProcess ⟨prev⟩ rand).2 27 =
        (prev 27 &&& 128) ||| attenuateXmaxc (prev 27 &&& 31)) := by
  have hbyte : ∀ i, i < 4 →
      TCHFACCHL1Decoder.badFrameMutate prev rand (6 + 7 * i) =
        (prev 27 &&& 128) ||| (rand i % 4) ||| attenuateXmaxc (prev 27 &&& 31) := by
    intro i hi
    have hcond : 6 + 7 * i < 33 ∧ (6 + 7 * i) % 7 = 6 := by omega
    have hdiv : (6 + 7 * i) / 7 = i := by omega
    rw [TCHFACCHL1Decoder.badFrameMutate, if_pos hcond, hdiv]
  refine ⟨hbyte, ?_, ?_, rfl, ?_⟩
  · intro i hi
    have hc1 : ¬(7 + 7 * i < 33 ∧ (7 + 7 * i) % 7 = 6) := by omega
    have hc2 : 7 + 7 * i < 33 ∧ (7 + 7 * i) % 7 = 0 ∧ 7 ≤ 7 + 7 * i := by omega
    show TCHFACCHL1Decoder.badFrameMutate prev rand (7 + 7 * i) = _
    rw [TCHFACCHL1Decoder.badFrameMutate, if_neg hc1, if_pos hc2]
  · intro idx h33 h6 h70
    show TCHFACCHL1Decoder.badFrameMutate prev rand idx = prev idx
    rw [TCHFACCHL1Decoder.badFrameMutate,
      if_neg (fun hc => h6 hc.2),
      if_neg (fun hc => h70 ⟨hc.2.1, hc.2.2⟩)]
  · intro hcontained
    have h27 := hbyte 3 (by omega)
    have he : 6 + 7 * 3 = 27 := by omega
    rw [he] at h27
    show TCHFACCHL1Decoder.badFrameMutate prev rand 27 = _
    rw [h27, Nat.lor_assoc, hcontained]

/-- Witness for C10 (amended) at a concrete frame and random stream. -/
theorem tch_badframe_mutation_witness :
    (TCHFACCHL1Decoder.badFrameProcess ⟨fun _ => 4⟩ (fun _ => 0)).2 6 =
      ((4 : Nat) &&& 128) ||| (0 % 4) ||| attenuateXmaxc (4 &&& 31) :=
  (tch_badframe_mutation (fun _ => 4) (fun _ => 0)).1 0 (by omega)
